import Mathlib

set_option maxRecDepth 10000
set_option maxHeartbeats 1000000

namespace ThriftSniffer

/-- Bytes of an observed payload are modelled as natural numbers (each intended
below 256, matching Rust u8); a buffer is a list of bytes. -/
abbrev Bytes := List Nat

/-- Model of the Rust indexing expression data[off] on a byte slice: the byte
when in bounds, none when the access would panic. -/
def readByte (data : Bytes) (off : Nat) : Option Nat := data.get? off

/-- Model of the Rust slice expression data[off..off+n]: the n bytes starting
at off when in bounds, none when the slice operation would panic. -/
def readBytes (data : Bytes) (off n : Nat) : Option Bytes :=
  if off + n ≤ data.length then some ((data.drop off).take n) else none

/-- Big-endian interpretation of a byte list, as computed by
u16/u32/u64::from_be_bytes in the source. -/
def beNat (bs : Bytes) : Nat := bs.foldl (fun a b => a * 256 + b) 0

/-- Model of u16::from_be_bytes(data[off..off+2]). -/
def readU16 (data : Bytes) (off : Nat) : Option Nat := (readBytes data off 2).map beNat

/-- Model of u32::from_be_bytes(data[off..off+4]). -/
def readU32 (data : Bytes) (off : Nat) : Option Nat := (readBytes data off 4).map beNat

/-- Model of the raw 64-bit big-endian word at data[off..off+8]. -/
def readU64 (data : Bytes) (off : Nat) : Option Nat := (readBytes data off 8).map beNat

/-- Two's-complement reinterpretation of a 64-bit word, as performed by
i64::from_be_bytes in the source. -/
def i64ofU64 (n : Nat) : Int :=
  if n < 9223372036854775808 then (n : Int) else (n : Int) - 18446744073709551616

/-- Wire-protocol variant of a decoded message. The source only ever decodes
the Binary protocol; the compact constructor mirrors the data model and is
never produced. -/
inductive ProtocolVariant where
  | binary
  | compact

/-- Message kind decoded from the low byte of the version+type word
(main.rs lines 135-143). -/
inductive MsgKind where
  | call
  | reply
  | exception
  | oneway
  | unknown

/-- Mapping of the low type byte to a message kind, mirroring the match at
main.rs lines 137-143. -/
def msgKindOf (t : Nat) : MsgKind :=
  if t = 1 then .call
  else if t = 2 then .reply
  else if t = 3 then .exception
  else if t = 4 then .oneway
  else .unknown

/-- Decoded field value. Constructors mirror the branches the source actually
decodes and reports: i64, string (raw bytes before lossy UTF-8 display), bool,
double (raw 64-bit pattern; the numeric float view is irrelevant to decoding),
nested struct, and list with its declared element type tag. -/
inductive Value where
  | vi64 : Int → Value
  | vstr : Bytes → Value
  | vbool : Bool → Value
  | vdouble : Nat → Value
  | vstruct : List (Nat × Value) → Value
  | vlist : Nat → List Value → Value

/-- Decoded field: numeric field id paired with its value. -/
abbrev Field := Nat × Value

/-- Element loop of the list branch of parse_struct (main.rs lines 303-338),
structurally recursive on the declared element count. Early break cases of the
source return the elements decoded so far together with the cursor. none would
model a panic; every read in this loop is in fact guarded by the source. -/
def parse_list_elems (data : Bytes) (elemType : Nat) : Nat → Nat → Option (Nat × List Value)
  | off, 0 => some (off, [])
  | off, count+1 =>
    if off + 4 > data.length then some (off, [])
    else
      match readU32 data off with
      | none => none
      | some len =>
        if off + 4 + len > data.length then some (off + 4, [])
        else if elemType = 0x0A then
          match readBytes data (off + 4) len with
          | none => none
          | some s =>
            (parse_list_elems data elemType (off + 4 + len) count).map
              (fun p => (p.1, Value.vstr s :: p.2))
        else if elemType = 0x0B then
          if off + 4 + 8 > data.length then some (off + 4, [])
          else
            match readU64 data (off + 4) with
            | none => none
            | some v =>
              (parse_list_elems data elemType (off + 4 + 8) count).map
                (fun p => (p.1, Value.vi64 (i64ofU64 v) :: p.2))
        else some (off + 4, [])

/-- Fueled model of the loop of parse_struct (main.rs lines 259-352). The
returned number is the cursor the function returns; the field list collects the
values the source prints. none models a Rust panic from one of the unchecked
slice accesses of this function (the i64, string and list-header reads). The
fuel only bounds loop iterations and recursive calls; the wrapper parse_struct
supplies fuel the source loop can never exhaust, since every iteration strictly
advances the cursor. -/
def parseStructF : Nat → Bytes → Nat → Option (Nat × List Field)
  | 0, _, _ => none
  | fuel+1, data, off0 =>
    if off0 + 1 > data.length then some (off0, [])
    else
      match readByte data off0 with
      | none => none
      | some ft =>
        if ft = 0 then some (off0 + 1, [])
        else if off0 + 1 + 2 > data.length then some (off0 + 1, [])
        else
          match readU16 data (off0 + 1) with
          | none => none
          | some fid =>
            if ft = 0x0A then
              match readU64 data (off0 + 3) with
              | none => none
              | some v =>
                (parseStructF fuel data (off0 + 3 + 8)).map
                  (fun p => (p.1, (fid, Value.vi64 (i64ofU64 v)) :: p.2))
            else if ft = 0x0B then
              match readU32 data (off0 + 3) with
              | none => none
              | some len =>
                match readBytes data (off0 + 3 + 4) len with
                | none => none
                | some s =>
                  (parseStructF fuel data (off0 + 3 + 4 + len)).map
                    (fun p => (p.1, (fid, Value.vstr s) :: p.2))
            else if ft = 0x0D then
              match readByte data (off0 + 3) with
              | none => none
              | some et =>
                match readU32 data (off0 + 3 + 2) with
                | none => none
                | some count =>
                  match parse_list_elems data et (off0 + 3 + 6) count with
                  | none => none
                  | some (off2, elems) =>
                    (parseStructF fuel data off2).map
                      (fun p => (p.1, (fid, Value.vlist et elems) :: p.2))
            else if ft = 0x0C then
              match parseStructF fuel data (off0 + 3) with
              | none => none
              | some (off2, inner) =>
                (parseStructF fuel data off2).map
                  (fun p => (p.1, (fid, Value.vstruct inner) :: p.2))
            else some (off0 + 3, [])

/-- parse_struct of main.rs (lines 259-352): the source loop advances the
cursor by at least one byte per iteration, so fuel 2*len+2 is never exhausted. -/
def parse_struct (data : Bytes) (off : Nat) : Option (Nat × List Field) :=
  parseStructF (2 * data.length + 2) data off

/-- Fueled model of the top-level field loop of parse_thrift_binary
(main.rs lines 167-243). Unlike parse_struct, the scalar and string reads here
are guarded (break instead of panic); a panic can still arise inside a nested
parse_struct call. The 0x0F branch skips 6 bytes past the field id and
continues; the default branch breaks out of the loop. -/
def parseFieldsF : Nat → Bytes → Nat → Option (Nat × List Field)
  | 0, _, _ => none
  | fuel+1, data, off0 =>
    if off0 + 1 > data.length then some (off0, [])
    else
      match readByte data off0 with
      | none => none
      | some ft =>
        if ft = 0 then some (off0 + 1, [])
        else if off0 + 1 + 2 > data.length then some (off0 + 1, [])
        else
          match readU16 data (off0 + 1) with
          | none => none
          | some fid =>
            if ft = 0x0A then
              if off0 + 3 + 8 > data.length then some (off0 + 3, [])
              else
                match readU64 data (off0 + 3) with
                | none => none
                | some v =>
                  (parseFieldsF fuel data (off0 + 3 + 8)).map
                    (fun p => (p.1, (fid, Value.vi64 (i64ofU64 v)) :: p.2))
            else if ft = 0x0B then
              if off0 + 3 + 4 > data.length then some (off0 + 3, [])
              else
                match readU32 data (off0 + 3) with
                | none => none
                | some len =>
                  if off0 + 3 + 4 + len > data.length then some (off0 + 3 + 4, [])
                  else
                    match readBytes data (off0 + 3 + 4) len with
                    | none => none
                    | some s =>
                      (parseFieldsF fuel data (off0 + 3 + 4 + len)).map
                        (fun p => (p.1, (fid, Value.vstr s) :: p.2))
            else if ft = 0x02 then
              if off0 + 3 + 1 > data.length then some (off0 + 3, [])
              else
                match readByte data (off0 + 3) with
                | none => none
                | some b =>
                  (parseFieldsF fuel data (off0 + 3 + 1)).map
                    (fun p => (p.1, (fid, Value.vbool (b != 0)) :: p.2))
            else if ft = 0x01 then
              if off0 + 3 + 8 > data.length then some (off0 + 3, [])
              else
                match readU64 data (off0 + 3) with
                | none => none
                | some bits =>
                  (parseFieldsF fuel data (off0 + 3 + 8)).map
                    (fun p => (p.1, (fid, Value.vdouble bits) :: p.2))
            else if ft = 0x0C then
              match parse_struct data (off0 + 3) with
              | none => none
              | some (off2, inner) =>
                (parseFieldsF fuel data off2).map
                  (fun p => (p.1, (fid, Value.vstruct inner) :: p.2))
            else if ft = 0x0F then
              parseFieldsF fuel data (off0 + 3 + 6)
            else some (off0 + 3, [])

/-- Decoded message envelope plus argument fields, the structured content the
source prints for one Binary-protocol message. -/
structure DecodedMessage where
  variant : ProtocolVariant
  messageKind : MsgKind
  methodName : Bytes
  sequenceId : Nat
  fields : List Field

/-- Outcome of parse_thrift_binary: each early-return print of the source is a
constructor, and a fully parsed message also records the final cursor of the
field loop. -/
inductive BinParse where
  | tooShort
  | badVersion
  | nameTruncated : MsgKind → BinParse
  | parsed : DecodedMessage → Nat → BinParse

/-- Model of parse_thrift_binary (main.rs lines 117-245). none models a Rust
panic: the version word read is guarded, but the method-name-length read at
offset 4 and the sequence-id read after the name are unchecked slices. The
source masks w with 0xFFFF0000 and 0x000000FF; those masks are written here as
the equal division/modulo expressions (w / 65536 % 65536 * 65536 and w % 256,
which agree with the bitwise masks on every natural number). -/
def parse_thrift_binary (data : Bytes) : Option BinParse :=
  if data.length < 4 then some .tooShort
  else
    match readU32 data 0 with
    | none => none
    | some w =>
      if w / 65536 % 65536 * 65536 ≠ 0x80010000 then some .badVersion
      else
        match readU32 data 4 with
        | none => none
        | some nameLen =>
          if data.length < 8 + nameLen then some (.nameTruncated (msgKindOf (w % 256)))
          else
            match readBytes data 8 nameLen with
            | none => none
            | some name =>
              match readU32 data (8 + nameLen) with
              | none => none
              | some seq =>
                match parseFieldsF (2 * data.length + 2) data (8 + nameLen + 4) with
                | none => none
                | some (finalOff, fields) =>
                  some (.parsed ⟨.binary, msgKindOf (w % 256), name, seq, fields⟩ finalOff)

/-- Scan loop of process_thrift_payload (main.rs lines 100-103): advance the
cursor until it reaches the buffer end or a 0x80 byte. Fuel bounds the loop;
the wrapper supplies length+1 which the loop cannot exhaust. -/
def scanF : Nat → Bytes → Nat → Nat
  | 0, _, off => off
  | fuel+1, data, off =>
    if off < data.length then
      if readByte data off = some 0x80 then off else scanF fuel data (off + 1)
    else off

/-- Scan for the Binary-protocol version byte 0x80 starting at off. -/
def scan80 (data : Bytes) (off : Nat) : Nat := scanF (data.length + 1) data off

/-- Outcome of process_thrift_payload: each early return of the source is a
constructor. ignoredShort is the silent return for payloads under 16 bytes. -/
inductive PayloadResult where
  | ignoredShort
  | notTHeader
  | headerTooLarge
  | noBinaryPayload
  | parsed : BinParse → PayloadResult

/-- Model of process_thrift_payload (main.rs lines 73-115): the THeader check
at byte 4, the header-length computation, the scan for the 0x80 marker, and the
hand-off of the remaining bytes to parse_thrift_binary. -/
def process_thrift_payload (payload : Bytes) : Option PayloadResult :=
  if payload.length < 16 then some .ignoredShort
  else
    match readByte payload 4 with
    | none => none
    | some pid =>
      if pid ≠ 0x10 then some .notTHeader
      else
        match readByte payload 12 with
        | none => none
        | some hlw =>
          if payload.length ≤ 12 + hlw * 4 then some .headerTooLarge
          else
            let transOff := scan80 payload (12 + hlw * 4)
            if transOff + 4 > payload.length then some .noBinaryPayload
            else
              match parse_thrift_binary (payload.drop transOff) with
              | none => none
              | some r => some (.parsed r)


/-- len4 encodes a natural number as its 4 big-endian bytes, the form in which
the test inputs below embed string lengths and element counts. -/
def len4 (n : Nat) : Bytes := [n / 16777216 % 256, n / 65536 % 256, n / 256 % 256, n % 256]

/-- Adversarial nesting used to witness unbounded recursion: n wrapped struct
fields, each holding one nested struct, closed by STOP bytes. -/
def deepInput : Nat → Bytes
  | 0 => [0]
  | n+1 => 0x0C :: 0 :: 1 :: (deepInput n ++ [0])

/-- The value the decoder reports for deepInput: an n-deep chain of
single-field structs. -/
def deepValue : Nat → List Field
  | 0 => []
  | n+1 => [(1, Value.vstruct (deepValue n))]

/-- Scenario-D input family: a Call envelope, one struct field (id 1) whose
body is a single list field (id 2) of element type 0x0A carrying three
length-prefixed strings, with both STOP bytes. -/
def structListBuf (s1 s2 s3 : Bytes) : Bytes :=
  [0x80, 0x01, 0x00, 0x01, 0, 0, 0, 1, 0x6D, 0, 0, 0, 7] ++
    (0x0C :: 0 :: 1 ::
     0x0D :: 0 :: 2 :: 0x0A :: 0 :: 0 :: 0 :: 0 :: 3 ::
     (len4 s1.length ++ (s1 ++ (len4 s2.length ++ (s2 ++ (len4 s3.length ++ (s3 ++ [0, 0])))))))

/-- Modelled from the spec: "sequence id = next 4 bytes as a BE signed 32-bit
integer" - the two's-complement signed reading of a 32-bit big-endian word,
stated for comparison with the unsigned value the code reports. -/
def beI32_spec (bs : Bytes) : Int :=
  if beNat bs < 2147483648 then (beNat bs : Int) else (beNat bs : Int) - 4294967296

theorem len4_length (n : Nat) : (len4 n).length = 4 := rfl

theorem len4_beNat {n : Nat} (h : n < 4294967296) : beNat (len4 n) = n := by
  simp only [beNat, len4, List.foldl]
  omega

theorem readBytes_bound {data : Bytes} {off n : Nat} {s : Bytes}
    (h : readBytes data off n = some s) : off + n ≤ data.length := by
  unfold readBytes at h
  split at h
  · assumption
  · exact absurd h (by simp)

theorem readU32_bound {data : Bytes} {off w : Nat}
    (h : readU32 data off = some w) : off + 4 ≤ data.length := by
  obtain ⟨s, hs, -⟩ := Option.map_eq_some'.mp h
  exact readBytes_bound hs

theorem readU64_bound {data : Bytes} {off w : Nat}
    (h : readU64 data off = some w) : off + 8 ≤ data.length := by
  obtain ⟨s, hs, -⟩ := Option.map_eq_some'.mp h
  exact readBytes_bound hs

/-- Reading one byte succeeds exactly on the head of the dropped tail. -/
theorem readByte_seg {data : Bytes} {off b : Nat} {rest : Bytes}
    (hd : data.drop off = b :: rest) : readByte data off = some b := by
  have h := List.get?_drop data off 0
  rw [hd] at h
  simpa [readByte] using h.symm

theorem drop_sub_length {data : Bytes} {off : Nat} {xs : Bytes}
    (hd : data.drop off = xs) : data.length - off = xs.length := by
  rw [← hd, List.length_drop]

/-- Reading a slice that is an initial segment of the dropped tail returns
that segment. -/
theorem readBytes_seg (seg rest : Bytes) {data : Bytes} {off : Nat}
    (hoff : off ≤ data.length) (hd : data.drop off = seg ++ rest) :
    readBytes data off seg.length = some seg := by
  have hl : data.length - off = seg.length + rest.length := by
    rw [← List.length_append, ← hd, List.length_drop]
  unfold readBytes
  rw [if_pos (by omega), hd, List.take_left]

theorem drop_through (seg : Bytes) {rest data : Bytes} {off : Nat}
    (hd : data.drop off = seg ++ rest) :
    data.drop (off + seg.length) = rest := by
  rw [← List.drop_drop, hd, List.drop_left]

/-- The element loop never moves the cursor backwards and never returns a
cursor beyond the buffer end. -/
theorem parse_list_elems_bound {data : Bytes} {et : Nat} :
    ∀ {cnt off off2 : Nat} {vs : List Value}, off ≤ data.length →
    parse_list_elems data et off cnt = some (off2, vs) →
    off ≤ off2 ∧ off2 ≤ data.length := by
  intro cnt
  induction cnt with
  | zero =>
    intro off off2 vs hoff h
    simp only [parse_list_elems, Option.some.injEq, Prod.mk.injEq] at h
    omega
  | succ k ih =>
    intro off off2 vs hoff h
    simp only [parse_list_elems] at h
    split at h
    · simp only [Option.some.injEq, Prod.mk.injEq] at h
      omega
    · rename_i hg1
      split at h
      · exact absurd h (by simp)
      · rename_i len0 hr
        split at h
        · simp only [Option.some.injEq, Prod.mk.injEq] at h
          omega
        · rename_i hg2
          split at h
          · split at h
            · exact absurd h (by simp)
            · rename_i s hs
              obtain ⟨p, hp, hpe⟩ := Option.map_eq_some'.mp h
              obtain ⟨o2, vs2⟩ := p
              obtain ⟨h1, h2⟩ := ih (by omega) hp
              simp only [Prod.mk.injEq] at hpe
              obtain ⟨rfl, -⟩ := hpe
              omega
          · split at h
            · split at h
              · simp only [Option.some.injEq, Prod.mk.injEq] at h
                omega
              · rename_i hg3
                split at h
                · exact absurd h (by simp)
                · rename_i v hv
                  obtain ⟨p, hp, hpe⟩ := Option.map_eq_some'.mp h
                  obtain ⟨o2, vs2⟩ := p
                  obtain ⟨h1, h2⟩ := ih (by omega) hp
                  simp only [Prod.mk.injEq] at hpe
                  obtain ⟨rfl, -⟩ := hpe
                  omega
            · simp only [Option.some.injEq, Prod.mk.injEq] at h
              omega

/-- Cursor discipline of the nested-struct decoder: a returned cursor is at
least the starting one and at most the buffer length, for every fuel. -/
theorem parseStructF_bound {data : Bytes} :
    ∀ {fuel off off2 : Nat} {fs : List Field}, off ≤ data.length →
    parseStructF fuel data off = some (off2, fs) →
    off ≤ off2 ∧ off2 ≤ data.length := by
  intro fuel
  induction fuel with
  | zero =>
    intro off off2 fs hoff h
    exact absurd h (by simp [parseStructF])
  | succ f ih =>
    intro off off2 fs hoff h
    simp only [parseStructF] at h
    split at h
    · simp only [Option.some.injEq, Prod.mk.injEq] at h
      omega
    · rename_i hg1
      split at h
      · exact absurd h (by simp)
      · rename_i ft hft
        split at h
        · simp only [Option.some.injEq, Prod.mk.injEq] at h
          omega
        · split at h
          · simp only [Option.some.injEq, Prod.mk.injEq] at h
            omega
          · rename_i hftz hg2
            split at h
            · exact absurd h (by simp)
            · rename_i fid hfid
              split at h
              · split at h
                · exact absurd h (by simp)
                · rename_i v hv
                  have hb := readU64_bound hv
                  obtain ⟨p, hp, hpe⟩ := Option.map_eq_some'.mp h
                  obtain ⟨o2, fs2⟩ := p
                  obtain ⟨h1, h2⟩ := ih (by omega) hp
                  simp only [Prod.mk.injEq] at hpe
                  obtain ⟨rfl, -⟩ := hpe
                  omega
              · split at h
                · split at h
                  · exact absurd h (by simp)
                  · rename_i len0 hlen
                    split at h
                    · exact absurd h (by simp)
                    · rename_i s hs
                      have hb := readBytes_bound hs
                      obtain ⟨p, hp, hpe⟩ := Option.map_eq_some'.mp h
                      obtain ⟨o2, fs2⟩ := p
                      obtain ⟨h1, h2⟩ := ih (by omega) hp
                      simp only [Prod.mk.injEq] at hpe
                      obtain ⟨rfl, -⟩ := hpe
                      omega
                · split at h
                  · split at h
                    · exact absurd h (by simp)
                    · rename_i et het
                      split at h
                      · exact absurd h (by simp)
                      · rename_i cnt hcnt
                        split at h
                        · exact absurd h (by simp)
                        · rename_i oe elems hpe0
                          have hb := readU32_bound hcnt
                          obtain ⟨he1, he2⟩ := parse_list_elems_bound (by omega) hpe0
                          obtain ⟨p, hp, hpe⟩ := Option.map_eq_some'.mp h
                          obtain ⟨o2, fs2⟩ := p
                          obtain ⟨h1, h2⟩ := ih (by omega) hp
                          simp only [Prod.mk.injEq] at hpe
                          obtain ⟨rfl, -⟩ := hpe
                          omega
                  · split at h
                    · split at h
                      · exact absurd h (by simp)
                      · rename_i no2 inner hpn0
                        obtain ⟨hn1, hn2⟩ := ih (by omega) hpn0
                        obtain ⟨p, hp, hpe⟩ := Option.map_eq_some'.mp h
                        obtain ⟨o2, fs2⟩ := p
                        obtain ⟨h1, h2⟩ := ih (by omega) hp
                        simp only [Prod.mk.injEq] at hpe
                        obtain ⟨rfl, -⟩ := hpe
                        omega
                    · simp only [Option.some.injEq, Prod.mk.injEq] at h
                      omega

/-- A STOP byte at the cursor ends a struct field list one byte further on. -/
theorem parseStructF_stop (fuel : Nat) {data : Bytes} {off : Nat} {rest : Bytes}
    (hoff : off ≤ data.length) (hd : data.drop off = 0 :: rest) :
    parseStructF (fuel + 1) data off = some (off + 1, []) := by
  have hb := readByte_seg hd
  have hl := drop_sub_length hd
  simp only [List.length_cons] at hl
  simp only [parseStructF]
  rw [if_neg (by omega), hb]
  simp

/-- A STOP byte at the cursor ends the top-level field list one byte further on. -/
theorem parseFieldsF_stop (fuel : Nat) {data : Bytes} {off : Nat} {rest : Bytes}
    (hoff : off ≤ data.length) (hd : data.drop off = 0 :: rest) :
    parseFieldsF (fuel + 1) data off = some (off + 1, []) := by
  have hb := readByte_seg hd
  have hl := drop_sub_length hd
  simp only [List.length_cons] at hl
  simp only [parseFieldsF]
  rw [if_neg (by omega), hb]
  simp

/-- One unfolding of the 0x0C branch of parse_struct at a cursor whose tail
starts with a struct field header. -/
theorem parseStructF_struct_step {fuel : Nat} {data : Bytes} {off f1 f0 : Nat} {rest : Bytes}
    (hoff : off ≤ data.length) (hd : data.drop off = 0x0C :: f1 :: f0 :: rest) :
    parseStructF (fuel + 1) data off =
      match parseStructF fuel data (off + 3) with
      | none => none
      | some (off2, inner) =>
        (parseStructF fuel data off2).map
          (fun p => (p.1, (beNat [f1, f0], Value.vstruct inner) :: p.2)) := by
  have hlen := drop_sub_length hd
  simp only [List.length_cons] at hlen
  have hb := readByte_seg hd
  have h2 : readBytes data (off + 1) 2 = some [f1, f0] := by
    have hd1 : data.drop (off + 1) = [f1, f0] ++ rest := by
      have := drop_through [0x0C] (by simpa using hd)
      simpa using this
    simpa using readBytes_seg [f1, f0] _ (by omega) hd1
  have h16 : readU16 data (off + 1) = some (beNat [f1, f0]) := by
    unfold readU16
    rw [h2]
    rfl
  simp only [parseStructF]
  rw [if_neg (by omega), hb]
  norm_num
  rw [if_neg (by omega), h16]

/-- One unfolding of the 0x0C branch of the top-level field loop. -/
theorem parseFieldsF_struct_step {fuel : Nat} {data : Bytes} {off f1 f0 : Nat} {rest : Bytes}
    (hoff : off ≤ data.length) (hd : data.drop off = 0x0C :: f1 :: f0 :: rest) :
    parseFieldsF (fuel + 1) data off =
      match parse_struct data (off + 3) with
      | none => none
      | some (off2, inner) =>
        (parseFieldsF fuel data off2).map
          (fun p => (p.1, (beNat [f1, f0], Value.vstruct inner) :: p.2)) := by
  have hlen := drop_sub_length hd
  simp only [List.length_cons] at hlen
  have hb := readByte_seg hd
  have h2 : readBytes data (off + 1) 2 = some [f1, f0] := by
    have hd1 : data.drop (off + 1) = [f1, f0] ++ rest := by
      have := drop_through [0x0C] (by simpa using hd)
      simpa using this
    simpa using readBytes_seg [f1, f0] _ (by omega) hd1
  have h16 : readU16 data (off + 1) = some (beNat [f1, f0]) := by
    unfold readU16
    rw [h2]
    rfl
  simp only [parseFieldsF]
  rw [if_neg (by omega), hb]
  norm_num
  rw [if_neg (by omega), h16]

/-- One unfolding of the 0x0D branch of parse_struct at a cursor whose tail
starts with a list field header: type, field id, element type, skipped byte,
and the four count bytes. -/
theorem parseStructF_list_step {fuel : Nat} {data : Bytes} {off f1 f0 et x c3 c2 c1 c0 : Nat}
    {rest : Bytes} (hoff : off ≤ data.length)
    (hd : data.drop off = 0x0D :: f1 :: f0 :: et :: x :: c3 :: c2 :: c1 :: c0 :: rest) :
    parseStructF (fuel + 1) data off =
      match parse_list_elems data et (off + 3 + 6) (beNat [c3, c2, c1, c0]) with
      | none => none
      | some (off2, elems) =>
        (parseStructF fuel data off2).map
          (fun p => (p.1, (beNat [f1, f0], Value.vlist et elems) :: p.2)) := by
  have hlen := drop_sub_length hd
  simp only [List.length_cons] at hlen
  have hb := readByte_seg hd
  have h2 : readBytes data (off + 1) 2 = some [f1, f0] := by
    have hd1 : data.drop (off + 1) = [f1, f0] ++ (et :: x :: c3 :: c2 :: c1 :: c0 :: rest) := by
      have := drop_through [0x0D] (by simpa using hd)
      simpa using this
    simpa using readBytes_seg [f1, f0] _ (by omega) hd1
  have h16 : readU16 data (off + 1) = some (beNat [f1, f0]) := by
    unfold readU16
    rw [h2]
    rfl
  have hd3 : data.drop (off + 3) = et :: x :: c3 :: c2 :: c1 :: c0 :: rest := by
    have := drop_through [0x0D, f1, f0] (by simpa using hd)
    simpa using this
  have het : readByte data (off + 3) = some et := readByte_seg hd3
  have hcount : readU32 data (off + 3 + 2) = some (beNat [c3, c2, c1, c0]) := by
    have hd5 : data.drop (off + 3 + 2) = [c3, c2, c1, c0] ++ rest := by
      have := drop_through [et, x] (by simpa using hd3)
      simpa using this
    have h4 : readBytes data (off + 3 + 2) 4 = some [c3, c2, c1, c0] := by
      simpa using readBytes_seg [c3, c2, c1, c0] _ (by omega) hd5
    unfold readU32
    rw [h4]
    rfl
  simp only [parseStructF]
  rw [if_neg (by omega), hb]
  norm_num
  rw [if_neg (by omega), h16, het, hcount]

/-- One string element of the list loop: a 4-byte length followed by that many
bytes, consumed from the front of the dropped tail. -/
theorem parse_list_elems_str_step {data : Bytes} {off cnt : Nat} {s rest : Bytes}
    (hoff : off ≤ data.length) (hlt : s.length < 4294967296)
    (hd : data.drop off = len4 s.length ++ (s ++ rest)) :
    parse_list_elems data 0x0A off (cnt + 1) =
      (parse_list_elems data 0x0A (off + 4 + s.length) cnt).map
        (fun p => (p.1, Value.vstr s :: p.2)) := by
  have hlen := drop_sub_length hd
  simp only [List.length_append, len4_length] at hlen
  have h4 : readBytes data off 4 = some (len4 s.length) := by
    have := readBytes_seg (len4 s.length) _ hoff hd
    rwa [len4_length] at this
  have hcnt : readU32 data off = some s.length := by
    unfold readU32
    rw [h4, Option.map_some', len4_beNat hlt]
  have hds : data.drop (off + 4) = s ++ rest := by
    have := drop_through (len4 s.length) hd
    rwa [len4_length] at this
  have hs : readBytes data (off + 4) s.length = some s :=
    readBytes_seg s rest (by omega) hds
  simp only [parse_list_elems]
  rw [if_neg (by omega), hcnt]
  norm_num
  rw [if_neg (by omega), hs]

theorem deepInput_length (n : Nat) : (deepInput n).length = 4 * n + 1 := by
  induction n with
  | zero => rfl
  | succ k ih =>
    simp [deepInput, ih]
    omega

/-- parse_struct walks a deepInput segment completely, one recursive call per
nesting level, for every depth n and every sufficient fuel. -/
theorem parseStructF_deep :
    ∀ (n : Nat) {fuel : Nat} {data : Bytes} {off : Nat} {rest : Bytes},
    n + 1 ≤ fuel → off ≤ data.length → data.drop off = deepInput n ++ rest →
    parseStructF fuel data off = some (off + (4 * n + 1), deepValue n) := by
  intro n
  induction n with
  | zero =>
    intro fuel data off rest hfuel hoff hd
    obtain ⟨f, rfl⟩ : ∃ f, fuel = f + 1 := ⟨fuel - 1, by omega⟩
    have hstop := parseStructF_stop f hoff
      (show data.drop off = 0 :: rest by simpa [deepInput] using hd)
    rw [hstop]
    norm_num [deepValue]
  | succ k ih =>
    intro fuel data off rest hfuel hoff hd
    obtain ⟨f, rfl⟩ : ∃ f, fuel = f + 1 := ⟨fuel - 1, by omega⟩
    have hd0 : data.drop off = 0x0C :: 0 :: 1 :: (deepInput k ++ (0 :: rest)) := by
      rw [hd]
      simp [deepInput]
    have hlen := drop_sub_length hd0
    simp only [List.length_cons, List.length_append, deepInput_length] at hlen
    have hd3 : data.drop (off + 3) = deepInput k ++ (0 :: rest) := by
      have := drop_through [0x0C, 0, 1] (by simpa using hd0)
      simpa using this
    have hnested : parseStructF f data (off + 3) =
        some (off + 3 + (4 * k + 1), deepValue k) :=
      ih (by omega) (by omega) hd3
    have hdstop : data.drop (off + 3 + (4 * k + 1)) = 0 :: rest := by
      have := drop_through (deepInput k) hd3
      rwa [deepInput_length] at this
    obtain ⟨g, rfl⟩ : ∃ g, f = g + 1 := ⟨f - 1, by omega⟩
    have hcont : parseStructF (g + 1) data (off + 3 + (4 * k + 1)) =
        some (off + 3 + (4 * k + 1) + 1, []) :=
      parseStructF_stop g (by omega) hdstop
    rw [parseStructF_struct_step hoff hd0, hnested]
    simp only [hcont, Option.map_some', Option.some.injEq, Prod.mk.injEq, deepValue,
      show beNat [0, 1] = 1 from rfl, List.cons.injEq, and_true, true_and]
    omega


theorem readU32_cons {data : Bytes} {off b3 b2 b1 b0 : Nat} {rest : Bytes}
    (hd : data.drop off = b3 :: b2 :: b1 :: b0 :: rest) :
    readU32 data off = some (beNat [b3, b2, b1, b0]) := by
  have hl := drop_sub_length hd
  simp only [List.length_cons] at hl
  have h4 : readBytes data off 4 = some [b3, b2, b1, b0] := by
    simpa using readBytes_seg [b3, b2, b1, b0] _ (by omega) (by simpa using hd)
  unfold readU32
  rw [h4]
  rfl

/-- Envelope decoding of a Call message with method name m and sequence id 7,
for an arbitrary field-section tail: the result is the field loop from
offset 13. -/
theorem parse_thrift_binary_envelope {tail : Bytes} :
    parse_thrift_binary ([0x80, 0x01, 0x00, 0x01, 0, 0, 0, 1, 0x6D, 0, 0, 0, 7] ++ tail) =
      match parseFieldsF (2 * (13 + tail.length) + 2)
          ([0x80, 0x01, 0x00, 0x01, 0, 0, 0, 1, 0x6D, 0, 0, 0, 7] ++ tail) 13 with
      | none => none
      | some (finalOff, fields) =>
        some (.parsed ⟨.binary, .call, [0x6D], 7, fields⟩ finalOff) := by
  have hlen : ([0x80, 0x01, 0x00, 0x01, 0, 0, 0, 1, 0x6D, 0, 0, 0, 7] ++ tail : Bytes).length
      = 13 + tail.length := by
    simp only [List.length_append, List.length_cons, List.length_nil]
  have hd0 : ([0x80, 0x01, 0x00, 0x01, 0, 0, 0, 1, 0x6D, 0, 0, 0, 7] ++ tail : Bytes).drop 0
      = 0x80 :: 0x01 :: 0x00 :: 0x01 :: (0 :: 0 :: 0 :: 1 :: 0x6D :: 0 :: 0 :: 0 :: 7 :: tail) := rfl
  have hd4 : ([0x80, 0x01, 0x00, 0x01, 0, 0, 0, 1, 0x6D, 0, 0, 0, 7] ++ tail : Bytes).drop 4
      = 0 :: 0 :: 0 :: 1 :: (0x6D :: 0 :: 0 :: 0 :: 7 :: tail) := rfl
  have hd8 : ([0x80, 0x01, 0x00, 0x01, 0, 0, 0, 1, 0x6D, 0, 0, 0, 7] ++ tail : Bytes).drop 8
      = [0x6D] ++ (0 :: 0 :: 0 :: 7 :: tail) := rfl
  have hd9 : ([0x80, 0x01, 0x00, 0x01, 0, 0, 0, 1, 0x6D, 0, 0, 0, 7] ++ tail : Bytes).drop 9
      = 0 :: 0 :: 0 :: 7 :: tail := rfl
  have hr0 : readU32 ([0x80, 0x01, 0x00, 0x01, 0, 0, 0, 1, 0x6D, 0, 0, 0, 7] ++ tail : Bytes) 0
      = some 2147549185 := by
    rw [readU32_cons hd0]
    rfl
  have hr4 : readU32 ([0x80, 0x01, 0x00, 0x01, 0, 0, 0, 1, 0x6D, 0, 0, 0, 7] ++ tail : Bytes) 4
      = some 1 := by
    rw [readU32_cons hd4]
    rfl
  have hname : readBytes ([0x80, 0x01, 0x00, 0x01, 0, 0, 0, 1, 0x6D, 0, 0, 0, 7] ++ tail : Bytes) 8 1
      = some [0x6D] := by
    simpa using readBytes_seg [0x6D] _ (by rw [hlen]; omega) hd8
  have hseq : readU32 ([0x80, 0x01, 0x00, 0x01, 0, 0, 0, 1, 0x6D, 0, 0, 0, 7] ++ tail : Bytes) 9
      = some 7 := by
    rw [readU32_cons hd9]
    rfl
  simp only [parse_thrift_binary, hlen, hr0, hr4, hname, hseq]
  norm_num [msgKindOf]
  rw [if_neg (by omega), if_neg (by omega)]

/-- C3: for every input encoding (per the conventions of this decoder) a field
of type Struct containing a List of three strings, the decoded struct value
contains one field whose value is a list of three string values equal to the
literal input strings. -/
theorem C3_struct_list_of_strings (s1 s2 s3 : Bytes)
    (h1 : s1.length < 4294967296) (h2 : s2.length < 4294967296)
    (h3 : s3.length < 4294967296) :
    parse_thrift_binary (structListBuf s1 s2 s3) =
      some (.parsed ⟨.binary, .call, [0x6D], 7,
        [(1, Value.vstruct
          [(2, Value.vlist 0x0A [Value.vstr s1, Value.vstr s2, Value.vstr s3])])]⟩
        (39 + (s1.length + (s2.length + s3.length)))) := by
  have hlen : (structListBuf s1 s2 s3).length
      = 39 + (s1.length + (s2.length + s3.length)) := by
    simp only [structListBuf, List.length_append, List.length_cons, List.length_nil,
      len4_length]
    omega
  have hd25 : (structListBuf s1 s2 s3).drop 25 =
      len4 s1.length ++ (s1 ++ (len4 s2.length ++ (s2 ++ (len4 s3.length ++ (s3 ++ [0, 0]))))) := rfl
  have hA : (structListBuf s1 s2 s3).drop (25 + 4) =
      s1 ++ (len4 s2.length ++ (s2 ++ (len4 s3.length ++ (s3 ++ [0, 0])))) := by
    have := drop_through (len4 s1.length) hd25
    rwa [len4_length] at this
  have hd29 : (structListBuf s1 s2 s3).drop (25 + 4 + s1.length) =
      len4 s2.length ++ (s2 ++ (len4 s3.length ++ (s3 ++ [0, 0]))) := by
    simpa using drop_through s1 hA
  have hB : (structListBuf s1 s2 s3).drop (25 + 4 + s1.length + 4) =
      s2 ++ (len4 s3.length ++ (s3 ++ [0, 0])) := by
    have := drop_through (len4 s2.length) hd29
    rwa [len4_length] at this
  have hd33 : (structListBuf s1 s2 s3).drop (25 + 4 + s1.length + 4 + s2.length) =
      len4 s3.length ++ (s3 ++ [0, 0]) := by
    simpa using drop_through s2 hB
  have hC : (structListBuf s1 s2 s3).drop (25 + 4 + s1.length + 4 + s2.length + 4) =
      s3 ++ [0, 0] := by
    have := drop_through (len4 s3.length) hd33
    rwa [len4_length] at this
  have hd37 : (structListBuf s1 s2 s3).drop
      (25 + 4 + s1.length + 4 + s2.length + 4 + s3.length) = 0 :: [0] := by
    simpa using drop_through s3 hC
  have helems : parse_list_elems (structListBuf s1 s2 s3) 0x0A 25 (2 + 1) =
      some (25 + 4 + s1.length + 4 + s2.length + 4 + s3.length,
        [Value.vstr s1, Value.vstr s2, Value.vstr s3]) := by
    rw [parse_list_elems_str_step (by omega) h1 hd25]
    rw [show (2 : Nat) = 1 + 1 from rfl]
    rw [parse_list_elems_str_step (by omega) h2 hd29]
    rw [show (1 : Nat) = 0 + 1 from rfl]
    rw [parse_list_elems_str_step (by omega) h3 hd33]
    simp only [parse_list_elems, Option.map_some']
  have hd16 : (structListBuf s1 s2 s3).drop 16 =
      0x0D :: 0 :: 2 :: 0x0A :: 0 :: 0 :: 0 :: 0 :: 3 ::
      (len4 s1.length ++ (s1 ++ (len4 s2.length ++ (s2 ++ (len4 s3.length ++ (s3 ++ [0, 0])))))) := rfl
  have hstruct : parse_struct (structListBuf s1 s2 s3) 16 =
      some (25 + 4 + s1.length + 4 + s2.length + 4 + s3.length + 1,
        [(2, Value.vlist 0x0A [Value.vstr s1, Value.vstr s2, Value.vstr s3])]) := by
    unfold parse_struct
    obtain ⟨g, hg⟩ : ∃ g, 2 * (structListBuf s1 s2 s3).length + 2 = g + 1 + 1 := ⟨_, rfl⟩
    rw [hg, parseStructF_list_step (by omega) hd16]
    rw [show beNat [0, 0, 0, 3] = 2 + 1 from rfl]
    rw [show (16 + 3 + 6 : Nat) = 25 from rfl]
    rw [helems]
    have hstop : parseStructF (g + 1) (structListBuf s1 s2 s3)
        (25 + 4 + s1.length + 4 + s2.length + 4 + s3.length) =
        some (25 + 4 + s1.length + 4 + s2.length + 4 + s3.length + 1, []) :=
      parseStructF_stop g (by omega) hd37
    simp [hstop, show beNat [0, 2] = 2 from rfl]
  have hd13 : (structListBuf s1 s2 s3).drop 13 =
      0x0C :: 0 :: 1 ::
      (0x0D :: 0 :: 2 :: 0x0A :: 0 :: 0 :: 0 :: 0 :: 3 ::
       (len4 s1.length ++ (s1 ++ (len4 s2.length ++ (s2 ++ (len4 s3.length ++ (s3 ++ [0, 0]))))))) := rfl
  have hd38 : (structListBuf s1 s2 s3).drop
      (25 + 4 + s1.length + 4 + s2.length + 4 + s3.length + 1) = 0 :: [] := by
    have := drop_through [0] (show (structListBuf s1 s2 s3).drop
      (25 + 4 + s1.length + 4 + s2.length + 4 + s3.length) = [0] ++ [0] from hd37)
    simpa using this
  show parse_thrift_binary ([0x80, 0x01, 0x00, 0x01, 0, 0, 0, 1, 0x6D, 0, 0, 0, 7] ++ _) = _
  rw [parse_thrift_binary_envelope]
  have hback : ([0x80, 0x01, 0x00, 0x01, 0, 0, 0, 1, 0x6D, 0, 0, 0, 7] ++
      (0x0C :: 0 :: 1 ::
       0x0D :: 0 :: 2 :: 0x0A :: 0 :: 0 :: 0 :: 0 :: 3 ::
       (len4 s1.length ++ (s1 ++ (len4 s2.length ++ (s2 ++ (len4 s3.length ++ (s3 ++ [0, 0]))))))
       : Bytes)) = structListBuf s1 s2 s3 := rfl
  rw [hback]
  obtain ⟨f, hf⟩ : ∃ f, 2 * (13 +
      (0x0C :: 0 :: 1 ::
       0x0D :: 0 :: 2 :: 0x0A :: 0 :: 0 :: 0 :: 0 :: 3 ::
       (len4 s1.length ++ (s1 ++ (len4 s2.length ++ (s2 ++ (len4 s3.length ++ (s3 ++ [0, 0]))))))
       : Bytes).length) + 2 = f + 1 + 1 := ⟨_, rfl⟩
  rw [hf]
  rw [parseFieldsF_struct_step (by omega) hd13]
  rw [show (13 + 3 : Nat) = 16 from rfl, hstruct]
  have hstop2 : parseFieldsF (f + 1) (structListBuf s1 s2 s3)
      (25 + 4 + s1.length + 4 + s2.length + 4 + s3.length + 1) =
      some (25 + 4 + s1.length + 4 + s2.length + 4 + s3.length + 1 + 1, []) :=
    parseFieldsF_stop f (by omega) hd38
  simp [hstop2, show beNat [0, 1] = 1 from rfl]
  omega


/-- C3 witness: the three strings a, bb, ccc decode to exactly those strings. -/
theorem C3_witness :
    parse_thrift_binary (structListBuf [97] [98, 98] [99, 99, 99]) =
      some (.parsed ⟨.binary, .call, [0x6D], 7,
        [(1, Value.vstruct [(2, Value.vlist 0x0A
          [Value.vstr [97], Value.vstr [98, 98], Value.vstr [99, 99, 99]])])]⟩ 45) :=
  C3_struct_list_of_strings [97] [98, 98] [99, 99, 99] (by decide) (by decide) (by decide)

/-- C1: the spec requires that decoding a prefix-truncated valid message always
returns a typed Truncated-class error and never aborts, every read being
bounds-checked. The code violates this: the 17-byte ping Call message decodes
fully, but its 15-byte truncation reaches the unchecked sequence-id slice
data[12..16] and panics (modelled as none). -/
theorem C1_truncation_panics :
    parse_thrift_binary ([0x80, 0x01, 0x00, 0x01, 0, 0, 0, 4,
        0x70, 0x69, 0x6E, 0x67, 0, 0, 0, 7, 0] : Bytes) =
      some (.parsed ⟨.binary, .call, [0x70, 0x69, 0x6E, 0x67], 7, []⟩ 17) ∧
    parse_thrift_binary (([0x80, 0x01, 0x00, 0x01, 0, 0, 0, 4,
        0x70, 0x69, 0x6E, 0x67, 0, 0, 0, 7, 0] : Bytes).take 15) = none :=
  ⟨rfl, rfl⟩

/-- C2: a Binary-protocol buffer encoding a Call of method ping with sequence
id 7 and an empty field list decodes to exactly that message. -/
theorem C2_scenario_a :
    parse_thrift_binary ([0x80, 0x01, 0x00, 0x01, 0, 0, 0, 4,
        0x70, 0x69, 0x6E, 0x67, 0, 0, 0, 7, 0] : Bytes) =
      some (.parsed ⟨.binary, .call, [0x70, 0x69, 0x6E, 0x67], 7, []⟩ 17) := rfl

/-- C4 counterexample: a complete, decodable plain Binary ping message (whose
byte at offset 4 is 0, not the THeader id 0x10) is not passed through to
decoding: process_thrift_payload reports notTHeader and stops. -/
theorem C4_counterexample :
    process_thrift_payload ([0x80, 0x01, 0x00, 0x01, 0, 0, 0, 4,
        0x70, 0x69, 0x6E, 0x67, 0, 0, 0, 7, 0] : Bytes) = some .notTHeader ∧
    parse_thrift_binary ([0x80, 0x01, 0x00, 0x01, 0, 0, 0, 4,
        0x70, 0x69, 0x6E, 0x67, 0, 0, 0, 7, 0] : Bytes) =
      some (.parsed ⟨.binary, .call, [0x70, 0x69, 0x6E, 0x67], 7, []⟩ 17) :=
  ⟨rfl, rfl⟩

/-- C4 (amended): every payload of at least 16 bytes whose byte at offset 4 is
not 0x10 is skipped entirely (reported as not-THeader); it never proceeds to
protocol detection or message decoding. -/
theorem C4_non_theader_skipped (payload : Bytes) (b : Nat) (hlen : 16 ≤ payload.length)
    (hb : payload.get? 4 = some b) (hne : b ≠ 0x10) :
    process_thrift_payload payload = some .notTHeader := by
  unfold process_thrift_payload
  rw [if_neg (by omega)]
  simp only [readByte, hb]
  rw [if_pos hne]

/-- C4 witness: the ping message is skipped. -/
theorem C4_witness :
    process_thrift_payload ([0x80, 0x01, 0x00, 0x01, 0, 0, 0, 4,
        0x70, 0x69, 0x6E, 0x67, 0, 0, 0, 7, 0] : Bytes) = some .notTHeader :=
  C4_non_theader_skipped _ 0 (by decide) (by decide) (by decide)

/-- C5 counterexample: on a 16-byte message whose single field has type tag
0x0F, the top-level loop advances the cursor 6 bytes past the field id to 22,
beyond the buffer length 16, and the decode still completes. -/
theorem C5_counterexample :
    parse_thrift_binary ([0x80, 0x01, 0x00, 0x01, 0, 0, 0, 1, 0x6D,
        0, 0, 0, 7, 0x0F, 0, 1] : Bytes) =
      some (.parsed ⟨.binary, .call, [0x6D], 7, []⟩ 22) ∧
    ([0x80, 0x01, 0x00, 0x01, 0, 0, 0, 1, 0x6D, 0, 0, 0, 7, 0x0F, 0, 1] : Bytes).length = 16 ∧
    16 < 22 :=
  ⟨rfl, rfl, by norm_num⟩

/-- C5 (amended): the nested-struct decoder parse_struct respects the cursor
discipline: when called at an in-bounds offset and returning without panic,
the returned offset is at least the given one and at most the buffer length.
(The top-level loop, by contrast, can push its cursor past the buffer end via
the 0x0F skip, as the counterexample shows.) -/
theorem C5_parse_struct_cursor_bounds (data : Bytes) (off off2 : Nat) (fs : List Field)
    (hoff : off ≤ data.length) (h : parse_struct data off = some (off2, fs)) :
    off ≤ off2 ∧ off2 ≤ data.length :=
  parseStructF_bound hoff h

/-- C5 witness: a lone STOP byte. -/
theorem C5_witness : 0 ≤ 1 ∧ 1 ≤ ([0] : Bytes).length :=
  C5_parse_struct_cursor_bounds [0] 0 1 [] (by decide) rfl

/-- C6 counterexample: an input nested 65 structs deep (past the spec example
bound of 64) decodes completely and successfully, with one recursive call per
level and no RecursionLimitExceeded error (none exists in the code). -/
theorem C6_counterexample :
    parse_struct (deepInput 65) 0 = some (261, deepValue 65) ∧
    (deepInput 65).length = 261 :=
  ⟨rfl, rfl⟩

/-- C6 (amended): recursion depth for nested Struct decoding is unbounded: for
every depth n, the n-deep nested input decodes fully to the n-deep struct
chain; no recursion limit exists. -/
theorem C6_unbounded_recursion (n : Nat) :
    parse_struct (deepInput n) 0 = some (4 * n + 1, deepValue n) := by
  have hd : (deepInput n).drop 0 = deepInput n ++ [] := by simp
  have h : parseStructF (2 * (deepInput n).length + 2) (deepInput n) 0 =
      some (0 + (4 * n + 1), deepValue n) :=
    parseStructF_deep n (by rw [deepInput_length]; omega) (by omega) hd
  simpa [parse_struct] using h

/-- C7 counterexample: a list field declaring 4294967295 elements with no
element bytes remaining is not rejected with CountOverflow; the decode
succeeds and returns the field with an empty element list. -/
theorem C7_counterexample :
    parse_struct ([0x0D, 0, 1, 0x0A, 0, 0xFF, 0xFF, 0xFF, 0xFF] : Bytes) 0 =
      some (9, [(1, Value.vlist 0x0A [])]) := rfl

/-- C7 (amended): the decoder performs no count-times-element-size validation
before iterating and has no CountOverflow error: for every declared element
count of at least 1 encoded in the four count bytes, with no element bytes
remaining, the element loop stops at its per-element bounds check and the
decode returns the list field with no elements. -/
theorem C7_no_count_validation (b3 b2 b1 b0 : Nat)
    (hpos : 1 ≤ beNat [b3, b2, b1, b0]) :
    parse_struct ([0x0D, 0, 1, 0x0A, 0, b3, b2, b1, b0] : Bytes) 0 =
      some (9, [(1, Value.vlist 0x0A [])]) := by
  obtain ⟨k, hk⟩ : ∃ k, beNat [b3, b2, b1, b0] = k + 1 :=
    ⟨beNat [b3, b2, b1, b0] - 1, by omega⟩
  have hcount : readU32 ([0x0D, 0, 1, 0x0A, 0, b3, b2, b1, b0] : Bytes) 5 =
      some (beNat [b3, b2, b1, b0]) := rfl
  have htail : parseStructF 19 ([0x0D, 0, 1, 0x0A, 0, b3, b2, b1, b0] : Bytes) 9 =
      some (9, []) := rfl
  show parseStructF (19 + 1) ([0x0D, 0, 1, 0x0A, 0, b3, b2, b1, b0] : Bytes) 0 = _
  rw [parseStructF]
  simp only [hcount, hk]
  simp [readByte, readU16, readBytes, parse_list_elems, htail]
  rfl

/-- C7 witness: declared count 4294967295. -/
theorem C7_witness : 1 ≤ beNat [0xFF, 0xFF, 0xFF, 0xFF] ∧
    parse_struct ([0x0D, 0, 1, 0x0A, 0, 0xFF, 0xFF, 0xFF, 0xFF] : Bytes) 0 =
      some (9, [(1, Value.vlist 0x0A [])]) :=
  ⟨by decide, C7_no_count_validation 0xFF 0xFF 0xFF 0xFF (by decide)⟩

/-- C8 counterexample: a message whose four sequence-id bytes are FF FF FF FF
(the signed value -1) is reported with sequence id 4294967295, the unsigned
reading, not the negative value the claim requires. -/
theorem C8_counterexample :
    parse_thrift_binary ([0x80, 0x01, 0x00, 0x01, 0, 0, 0, 1, 0x61,
        0xFF, 0xFF, 0xFF, 0xFF, 0] : Bytes) =
      some (.parsed ⟨.binary, .call, [0x61], 4294967295, []⟩ 14) ∧
    beI32_spec [0xFF, 0xFF, 0xFF, 0xFF] = -1 ∧ (4294967295 : Int) ≠ -1 :=
  ⟨rfl, by norm_num [beI32_spec, beNat], by norm_num⟩

/-- C8 (amended): the sequence id is decoded from the 4 bytes following the
method name as a big-endian unsigned 32-bit integer, so an encoded negative
sequence id is reported as its two's-complement unsigned value. -/
theorem C8_seq_id_unsigned (b3 b2 b1 b0 : Nat) :
    parse_thrift_binary ([0x80, 0x01, 0x00, 0x01, 0, 0, 0, 1, 0x61,
        b3, b2, b1, b0, 0] : Bytes) =
      some (.parsed ⟨.binary, .call, [0x61], beNat [b3, b2, b1, b0], []⟩ 14) := by
  have hr0 : readU32 ([0x80, 0x01, 0x00, 0x01, 0, 0, 0, 1, 0x61,
      b3, b2, b1, b0, 0] : Bytes) 0 = some 2147549185 := rfl
  have hr4 : readU32 ([0x80, 0x01, 0x00, 0x01, 0, 0, 0, 1, 0x61,
      b3, b2, b1, b0, 0] : Bytes) 4 = some 1 := rfl
  simp only [parse_thrift_binary, hr0, hr4]
  rfl

/-- C9: every payload shorter than 16 bytes is ignored entirely, silently,
without decoding and without reporting an error. -/
theorem C9_short_payload_ignored (payload : Bytes) (h : payload.length < 16) :
    process_thrift_payload payload = some .ignoredShort := by
  unfold process_thrift_payload
  rw [if_pos h]

/-- C9 witness: a complete, valid 13-byte Binary Call message (empty method
name, sequence id 7, STOP) is silently ignored even though parse_thrift_binary
would decode it fully. -/
theorem C9_witness :
    (([0x80, 0x01, 0x00, 0x01, 0, 0, 0, 0, 0, 0, 0, 7, 0] : Bytes).length < 16) ∧
    process_thrift_payload ([0x80, 0x01, 0x00, 0x01, 0, 0, 0, 0, 0, 0, 0, 7, 0] : Bytes) =
      some .ignoredShort ∧
    parse_thrift_binary ([0x80, 0x01, 0x00, 0x01, 0, 0, 0, 0, 0, 0, 0, 7, 0] : Bytes) =
      some (.parsed ⟨.binary, .call, [], 7, []⟩ 13) :=
  ⟨by decide, C9_short_payload_ignored _ (by decide), rfl⟩

/-- C10: in the top-level Binary field list a 0x0F type tag is not an error:
the cursor advances exactly 6 bytes past the field id (so a following bool
field at that position still decodes), while any other unknown tag terminates
the field list (the following bool field is never decoded). -/
theorem C10_type15_skips_six (j1 j2 j3 j4 j5 j6 t : Nat) (ht0 : t ≠ 0)
    (ht1 : t ≠ 1) (ht2 : t ≠ 2) (hta : t ≠ 10) (htb : t ≠ 11) (htc : t ≠ 12)
    (htf : t ≠ 15) :
    parse_thrift_binary ([0x80, 0x01, 0x00, 0x01, 0, 0, 0, 1, 0x6D, 0, 0, 0, 7,
        0x0F, 0, 1, j1, j2, j3, j4, j5, j6, 0x02, 0, 2, 1, 0] : Bytes) =
      some (.parsed ⟨.binary, .call, [0x6D], 7, [(2, Value.vbool true)]⟩ 27) ∧
    parse_thrift_binary ([0x80, 0x01, 0x00, 0x01, 0, 0, 0, 1, 0x6D, 0, 0, 0, 7,
        t, 0, 1, j1, j2, j3, j4, j5, j6, 0x02, 0, 2, 1, 0] : Bytes) =
      some (.parsed ⟨.binary, .call, [0x6D], 7, []⟩ 16) := by
  constructor
  · have hr0 : readU32 ([0x80, 0x01, 0x00, 0x01, 0, 0, 0, 1, 0x6D, 0, 0, 0, 7,
        0x0F, 0, 1, j1, j2, j3, j4, j5, j6, 0x02, 0, 2, 1, 0] : Bytes) 0 =
        some 2147549185 := rfl
    have hr4 : readU32 ([0x80, 0x01, 0x00, 0x01, 0, 0, 0, 1, 0x6D, 0, 0, 0, 7,
        0x0F, 0, 1, j1, j2, j3, j4, j5, j6, 0x02, 0, 2, 1, 0] : Bytes) 4 =
        some 1 := rfl
    simp only [parse_thrift_binary, hr0, hr4]
    rfl
  · have hr0 : readU32 ([0x80, 0x01, 0x00, 0x01, 0, 0, 0, 1, 0x6D, 0, 0, 0, 7,
        t, 0, 1, j1, j2, j3, j4, j5, j6, 0x02, 0, 2, 1, 0] : Bytes) 0 =
        some 2147549185 := rfl
    have hr4 : readU32 ([0x80, 0x01, 0x00, 0x01, 0, 0, 0, 1, 0x6D, 0, 0, 0, 7,
        t, 0, 1, j1, j2, j3, j4, j5, j6, 0x02, 0, 2, 1, 0] : Bytes) 4 =
        some 1 := rfl
    have hname : readBytes ([0x80, 0x01, 0x00, 0x01, 0, 0, 0, 1, 0x6D, 0, 0, 0, 7,
        t, 0, 1, j1, j2, j3, j4, j5, j6, 0x02, 0, 2, 1, 0] : Bytes) 8 1 =
        some [0x6D] := rfl
    have hseq : readU32 ([0x80, 0x01, 0x00, 0x01, 0, 0, 0, 1, 0x6D, 0, 0, 0, 7,
        t, 0, 1, j1, j2, j3, j4, j5, j6, 0x02, 0, 2, 1, 0] : Bytes) 9 =
        some 7 := rfl
    have hb : readByte ([0x80, 0x01, 0x00, 0x01, 0, 0, 0, 1, 0x6D, 0, 0, 0, 7,
        t, 0, 1, j1, j2, j3, j4, j5, j6, 0x02, 0, 2, 1, 0] : Bytes) 13 = some t := rfl
    have h16 : readU16 ([0x80, 0x01, 0x00, 0x01, 0, 0, 0, 1, 0x6D, 0, 0, 0, 7,
        t, 0, 1, j1, j2, j3, j4, j5, j6, 0x02, 0, 2, 1, 0] : Bytes) 14 = some 1 := rfl
    have hloop : parseFieldsF 56 ([0x80, 0x01, 0x00, 0x01, 0, 0, 0, 1, 0x6D, 0, 0, 0, 7,
        t, 0, 1, j1, j2, j3, j4, j5, j6, 0x02, 0, 2, 1, 0] : Bytes) 13 = some (16, []) := by
      rw [show (56 : Nat) = 55 + 1 from rfl, parseFieldsF, hb]
      simp [ht0, ht1, ht2, hta, htb, htc, htf, h16]
    simp only [parse_thrift_binary, hr0, hr4, hname, hseq]
    norm_num [hloop]
    rfl

/-- C10 witness: junk bytes 0 and unknown tag 0x63. -/
theorem C10_witness :
    parse_thrift_binary ([0x80, 0x01, 0x00, 0x01, 0, 0, 0, 1, 0x6D, 0, 0, 0, 7,
        0x0F, 0, 1, 0, 0, 0, 0, 0, 0, 0x02, 0, 2, 1, 0] : Bytes) =
      some (.parsed ⟨.binary, .call, [0x6D], 7, [(2, Value.vbool true)]⟩ 27) ∧
    parse_thrift_binary ([0x80, 0x01, 0x00, 0x01, 0, 0, 0, 1, 0x6D, 0, 0, 0, 7,
        0x63, 0, 1, 0, 0, 0, 0, 0, 0, 0x02, 0, 2, 1, 0] : Bytes) =
      some (.parsed ⟨.binary, .call, [0x6D], 7, []⟩ 16) :=
  C10_type15_skips_six 0 0 0 0 0 0 0x63 (by decide) (by decide) (by decide)
    (by decide) (by decide) (by decide) (by decide)

end ThriftSniffer
